import Mathlib

/-!
Shallow embedding of the smdv synchronization hub (src/smdv.py): the message
dictionaries exchanged over the websocket, the canonical state `MESSAGE`, the
bounded history deques `BACKMESSAGES` / `FORWARDMESSAGES`, the renderer
dispatch `encode`, and the message handler `handle_message`, together with
theorems about the hub's specified properties.

Python dictionaries with the fixed protocol key set are modelled as a record
of `Option` fields (a missing key is `none`); keys outside the protocol set
are tracked by name in the `extra` field.  Python exceptions are modelled with
`Except PyErr`.  External collaborators (the markdown renderer, the notebook
renderer, the directory lister, and the configured stdin encoding) are the
fields of an `Env` record, since the source delegates them to libraries and
to the filesystem.
-/

namespace Smdv

/-- The error outcomes of the embedded Python code. -/
inductive PyErr
  | keyError        -- `d[k]` on a dict without key `k`
  | indexError      -- `filename[0]` on an empty (or missing) filename
  | assertionError  -- an `assert` in `validate_message` fired
  | valueError      -- `register_client`: not a valid client identifier
  | fuel            -- artificial marker: recursion fuel ran out (never happens
                    -- with enough fuel; see the termination theorems)
  deriving Repr, DecidableEq

/-- A websocket message dict.  Each protocol key is an `Option` field
(`none` = key absent); any further key is recorded by name in `extra`. -/
structure Msg where
  client : Option String
  func : Option String
  cwd : Option String
  cwdBody : Option String
  cwdEncoded : Option Bool
  filename : Option String
  fileBody : Option String
  fileCwd : Option String
  fileOpen : Option Bool
  fileEncoding : Option String
  fileEncoded : Option Bool
  forceClose : Option Bool
  extra : List String
  deriving Repr, DecidableEq

/-- The empty dict `{}` (the initial value of the global `MESSAGE`). -/
def Msg.empty : Msg :=
  ⟨none, none, none, none, none, none, none, none, none, none, none, none, []⟩

/-- Python truthiness of an optional string: a missing key and `""` are falsy. -/
def truthyS : Option String → Bool
  | none => false
  | some s => !(s == "")

/-- Python truthiness of an optional bool: a missing key and `False` are falsy. -/
def truthyB : Option Bool → Bool
  | none => false
  | some b => b

/-- `d[k]`: a direct dict lookup, raising `KeyError` when the key is absent. -/
def keyGet {α : Type} : Option α → Except PyErr α
  | none => .error .keyError
  | some a => .ok a

/-- External collaborators of the hub (libraries, filesystem, CLI arguments). -/
structure Env where
  /-- `md2body` (lines 1234-1258): the markdown library plus the relative-URL
  rewriting; it depends on the markdown interpreter and on the CLI arguments,
  so it is kept abstract here. -/
  md2body : String → String
  /-- `ipynb2body` (lines 1071-1099): the nbconvert renderer; `none` models the
  `ImportError` raised when nbconvert is unavailable. -/
  ipynb2body : String → Option String
  /-- `dir2body` (lines 1024-1046): the directory listing, a function of the
  filesystem snapshot. -/
  dir2body : String → String
  /-- `ARGS.stdin`: the configured default input encoding. -/
  stdin : String

/-- `txt2body` (lines 1634-1641): wrap the content in a fenced code block and
render it through the markdown path. -/
def txt2body (env : Env) (content : String) : String :=
  env.md2body ("```\n" ++ content ++ "\n```")

/-- The characters after the last `/` (the basename, as `os.path.splitext`
sees it). -/
def basenameChars (cs : List Char) : List Char :=
  (cs.reverse.takeWhile (fun c => c ≠ '/')).reverse

/-- The extension part (dot included) computed by `os.path.splitext`: the part
of the basename from its last dot on, unless every character before that dot
is itself a dot (a leading-dots name has no extension). -/
def extChars (cs : List Char) : List Char :=
  let b := basenameChars cs
  let afterRev := b.reverse.takeWhile (fun c => c ≠ '.')
  if afterRev.length = b.length then []
  else
    let stem := b.take (b.length - afterRev.length - 1)
    if stem.all (fun c => c = '.') then [] else '.' :: afterRev.reverse

/-- `os.path.splitext(s)[1]`: the extension of `s`, dot included. -/
def splitextExt (s : String) : String := String.mk (extChars s.data)

/-- Lines 1018-1019: the retried message — encoding degraded to `"txt"`,
`fileEncoded` reset to `False`. -/
def txtRetry (m : Msg) : Msg :=
  { m with fileEncoding := some "txt", fileEncoded := some false }

/-- Lines 1012-1020 of `encode`: the `txt` branch, the `html` test on the
dict value of `fileEncoding`, and the final fallback that degrades the
encoding to `txt`, clears `fileEncoded` and retries (`recur`). -/
def encodeTail (env : Env) (recur : Msg → Except PyErr Msg) (m : Msg)
    (encoding : String) : Except PyErr Msg :=
  if encoding = "txt" then
    match m.fileBody with
    | none => .error .keyError
    | some b => .ok { m with fileBody := some (txt2body env b) }
  else
    match m.fileEncoding with
    | none => .error .keyError
    | some fe =>
      if fe = "html" then .ok m
      else recur (txtRetry m)

/-- Lines 1003-1011 of `encode`: the `md` branch and the `ipynb` branch whose
`ImportError` handler degrades the encoding to `txt` and falls through into
the `txt` test of `encodeTail`. -/
def encodeDispatch (env : Env) (recur : Msg → Except PyErr Msg) (m : Msg)
    (encoding : String) : Except PyErr Msg :=
  if encoding = "md" then
    match m.fileBody with
    | none => .error .keyError
    | some b => .ok { m with fileBody := some (env.md2body b) }
  else if encoding = "ipynb" then
    match m.fileBody with
    | none => .error .keyError
    | some b =>
      match env.ipynb2body b with
      | some h => .ok { m with fileBody := some h }
      | none => encodeTail env recur { m with fileEncoding := some "txt" } "txt"
  else encodeTail env recur m encoding

/-- The body of `encode` (lines 988-1020), with the recursive self-call
abstracted as `recur`: return unchanged when `fileEncoded` is truthy,
otherwise set `fileEncoded`, infer a missing encoding from the filename
(`filename[0]` raises on an empty or missing filename; a dot-file without a
further dot is `txt`; otherwise the `splitext` extension, falling back to
the configured stdin encoding), and dispatch on the encoding. -/
def encodeCore (env : Env) (recur : Msg → Except PyErr Msg) (m0 : Msg) :
    Except PyErr Msg :=
  if truthyB m0.fileEncoded then .ok m0
  else
    let m1 : Msg := { m0 with fileEncoded := some true }
    if truthyS m1.fileEncoding then
      encodeDispatch env recur m1 (m1.fileEncoding.getD "")
    else
      match m1.filename with
      | none => .error .indexError
      | some f =>
        match f.data with
        | [] => .error .indexError
        | c :: rest =>
          let e :=
            if (c == '.') && !(rest.contains '.') then "txt"
            else
              let ex := (splitextExt f).drop 1
              if ex = "" then env.stdin else ex
          encodeDispatch env recur { m1 with fileEncoding := some e } e

/-- `encode` with explicit recursion fuel. -/
def encodeAux (env : Env) : Nat → Msg → Except PyErr Msg
  | 0, _ => .error .fuel
  | fuel + 1, m0 => encodeCore env (encodeAux env fuel) m0

/-- `encode`: fuel 2 is enough for every input (proved below). -/
def encode (env : Env) (m : Msg) : Except PyErr Msg := encodeAux env 2 m

/-! ## The hub state and the message handler -/

/-- The hub's module-level state: the canonical `MESSAGE` dict, the history
deques `BACKMESSAGES` and `FORWARDMESSAGES` (head = most recent, i.e. the
`appendleft` end), and the number of registered js viewer connections. -/
structure HubState where
  message : Msg
  back : List Msg
  fwd : List Msg
  jsClients : Nat
  deriving Repr, DecidableEq

/-- The fresh hub: `MESSAGE = {}`, empty deques, no viewers. -/
def initState : HubState := ⟨Msg.empty, [], [], 0⟩

/-- The key set checked by `validate_message` (lines 1672-1684). -/
def requiredKeys : List String :=
  ["client", "func", "cwd", "cwdBody", "cwdEncoded", "filename", "fileBody",
   "fileCwd", "fileOpen", "fileEncoding", "fileEncoded"]

/-- `k in message`: whether the dict has the key `k`. -/
def Msg.hasKey (m : Msg) : String → Bool
  | "client" => m.client.isSome
  | "func" => m.func.isSome
  | "cwd" => m.cwd.isSome
  | "cwdBody" => m.cwdBody.isSome
  | "cwdEncoded" => m.cwdEncoded.isSome
  | "filename" => m.filename.isSome
  | "fileBody" => m.fileBody.isSome
  | "fileCwd" => m.fileCwd.isSome
  | "fileOpen" => m.fileOpen.isSome
  | "fileEncoding" => m.fileEncoding.isSome
  | "fileEncoded" => m.fileEncoded.isSome
  | "forceClose" => m.forceClose.isSome
  | k => m.extra.contains k

/-- `validate_message` (lines 1669-1687), translated exactly as written:
the guard compares `message.get("client", "func")` — the value of the
`client` key, defaulting to the literal string `"func"` — against
`{"dir", "file"}`, and the loop `for key in keys` asserts `key in message`
and `key in keys` for each required key.  `true` means no assert fired. -/
def validate_message (m : Msg) : Bool :=
  if (["dir", "file"] : List String).contains (m.client.getD "func") then
    requiredKeys.all (fun k => m.hasKey k && requiredKeys.contains k)
  else true

/-- Overwrite-if-present: the value a key has after `old.update(new)`. -/
def updKey {α : Type} (new old : Option α) : Option α :=
  match new with
  | some v => some v
  | none => old

/-- `MESSAGE.update(message)` (line 730): every key present in the incoming
dict overwrites the canonical one; absent keys keep their canonical value. -/
def Msg.update (old new : Msg) : Msg where
  client := updKey new.client old.client
  func := updKey new.func old.func
  cwd := updKey new.cwd old.cwd
  cwdBody := updKey new.cwdBody old.cwdBody
  cwdEncoded := updKey new.cwdEncoded old.cwdEncoded
  filename := updKey new.filename old.filename
  fileBody := updKey new.fileBody old.fileBody
  fileCwd := updKey new.fileCwd old.fileCwd
  fileOpen := updKey new.fileOpen old.fileOpen
  fileEncoding := updKey new.fileEncoding old.fileEncoding
  fileEncoded := updKey new.fileEncoded old.fileEncoded
  forceClose := updKey new.forceClose old.forceClose
  extra := new.extra ++ old.extra.filter (fun k => !(new.extra.contains k))

/-- The directory-only snapshot pushed onto `BACKMESSAGES`
(lines 804-818); reading the three cwd values out of `MESSAGE` raises
`KeyError` when one is missing. -/
def backEntry (m : Msg) : Except PyErr Msg := do
  let c ← keyGet m.cwd
  let cb ← keyGet m.cwdBody
  let ce ← keyGet m.cwdEncoded
  .ok { client := some "py", func := some "dir",
        cwd := some c, cwdBody := some cb, cwdEncoded := some ce,
        filename := some "", fileBody := some "", fileCwd := some "",
        fileOpen := some false, fileEncoding := some "",
        fileEncoded := some false, forceClose := none, extra := [] }

/-- One `.pop()` from the far (right, oldest) end of a deque when its length
exceeds 20 (lines 709-710 and 819-820). -/
def trimOldest (l : List Msg) : List Msg :=
  if l.length > 20 then l.dropLast else l

/-- `send_message_to_all_js_clients` (lines 796-822): push a directory
snapshot onto `BACKMESSAGES` when it is empty or its top has a different
`cwd` than `MESSAGE` (trimming the deque to 20), then send `MESSAGE` to
every registered js client.  Returns the new state and the payload that is
delivered to each registered viewer. -/
def sendToAll (s : HubState) : Except PyErr (HubState × Msg) := do
  let push ←
    match s.back with
    | [] => pure true
    | top :: _ => do
        let c ← keyGet s.message.cwd
        let tc ← keyGet top.cwd
        pure (decide (c ≠ tc))
  if push then do
    let e ← backEntry s.message
    .ok ({ s with back := trimOldest (e :: s.back) }, s.message)
  else
    .ok (s, s.message)

/-- The result of one `handle_message` call: the new hub state, the payloads
handed to `send_message_to_all_js_clients` (each is delivered to every
registered viewer), and the synchronous replies sent back to the requesting
client (`numJSClients`). -/
structure HandleOut where
  state : HubState
  broadcasts : List Msg
  replies : List String
  deriving Repr, DecidableEq

/-- Line 689: `message.pop("nvimAddress", ...)` — the value updates the CLI
arguments (outside the hub state) and the key is removed from the dict. -/
def popNvim (m : Msg) : Msg :=
  { m with extra := m.extra.filter (fun k => !(k == "nvimAddress")) }

/-- Lines 724-726: render the directory listing into `cwdBody` when the
message's `cwdEncoded` is falsy (`message["cwdEncoded"]` raises `KeyError`
when the key is absent). -/
def dirRender (env : Env) (m1 : Msg) : Except PyErr Msg :=
  match m1.cwdEncoded with
  | none => .error .keyError
  | some ce =>
    if !ce then do
      let c ← keyGet m1.cwd
      pure { m1 with cwdBody := some (env.dir2body c), cwdEncoded := some true }
    else pure m1

/-- Lines 713-726: the `dir`-specific steps — merge the currently open file's
fields into a message that carries no filename (unless a forced close was
requested; `forceClose` is popped only when the first two conjuncts of the
short-circuit `and` hold), then render the directory listing when
`cwdEncoded` is falsy. -/
def dirMerge (env : Env) (s : HubState) (msg : Msg) : Except PyErr Msg :=
  (if !(truthyS msg.filename) && truthyS s.message.filename then
    if !(truthyB msg.forceClose) then do
      let fn ← keyGet s.message.filename
      let fc ← keyGet s.message.fileCwd
      let fb ← keyGet s.message.fileBody
      let fe ← keyGet s.message.fileEncoding
      let fd ← keyGet s.message.fileEncoded
      pure { msg with
             forceClose := none
             filename := some fn
             fileCwd := some fc
             fileBody := some fb
             fileEncoding := some fe
             fileEncoded := some fd }
    else pure { msg with forceClose := none }
  else pure msg) >>= dirRender env

/-- Lines 729-734: `MESSAGE.update(message)` followed by the broadcast. -/
def mergeAndBroadcast (s : HubState) (m : Msg) : Except PyErr HandleOut :=
  (sendToAll { s with message := s.message.update m }).map
    (fun p => ⟨p.1, [p.2], []⟩)

/-- `handle_message` (lines 682-734).  `os.chdir` (line 692) and the external
editor (`editFile`, interactive mode) are process-level effects outside the
hub state; the `editFile` branch still performs the two `MESSAGE[...]`
lookups of line 699.  The `back` branch re-invokes the handler on the
resolved history entry, so the translation carries recursion fuel. -/
def handle_message (env : Env) : Nat → HubState → Msg → Except PyErr HandleOut
  | 0, _, _ => .error .fuel
  | fuel + 1, s, msg0 =>
    let msg := popNvim msg0
    if !(validate_message msg) then .error .assertionError
    else if !(truthyS msg.func) then .ok ⟨s, [], []⟩
    else if msg.func = some "numJSClients" then .ok ⟨s, [], [toString s.jsClients]⟩
    else if msg.func = some "editFile" then
      (keyGet s.message.fileCwd).bind fun _ =>
        (keyGet s.message.filename).bind fun _ => .ok ⟨s, [], []⟩
    else if msg.func = some "back" then
      match s.back with
      | t1 :: t2 :: rest =>
        if truthyB msg.fileOpen then
          handle_message env fuel
            { s with back := t2 :: rest, fwd := trimOldest s.fwd } t1
        else
          handle_message env fuel
            { s with back := rest, fwd := trimOldest (t1 :: s.fwd) } t2
      | _ => .ok ⟨s, [], []⟩
    else if msg.func = some "dir" then
      (dirMerge env s msg).bind (mergeAndBroadcast s)
    else if msg.func = some "file" then
      (encode env msg).bind (mergeAndBroadcast s)
    else .ok ⟨s, [], []⟩

/-- `register_client` (lines 738-761): a `js` client is added to the viewer
registry and immediately sent `json.dumps(MESSAGE)`; a `py` client is only
registered; anything else raises `ValueError`.  The registration message is
then passed to `handle_message`.  Returns the replay payload sent to a new
js viewer (`none` for py producers) with the handler's result. -/
def register_client (env : Env) (fuel : Nat) (s : HubState) (first : Msg) :
    Except PyErr (Option Msg × HandleOut) :=
  match first.client.getD "" with
  | "js" =>
      let s1 : HubState := { s with jsClients := s.jsClients + 1 }
      (handle_message env fuel s1 first).map (fun out => (some s1.message, out))
  | "py" => (handle_message env fuel s first).map (fun out => (none, out))
  | _ => .error .valueError

/-- Run a sequence of producer messages through the hub in order, collecting
every broadcast payload. -/
def processAll (env : Env) (fuel : Nat) :
    HubState → List Msg → Except PyErr (HubState × List Msg)
  | s, [] => .ok (s, [])
  | s, m :: ms => do
    let out ← handle_message env fuel s m
    let (s2, bs) ← processAll env fuel out.state ms
    .ok (s2, out.broadcasts ++ bs)

/-! ## Concrete instances used by witnesses and scenarios -/

/-- A concrete environment instance used to evaluate the embedded code on
concrete inputs. -/
def envTest : Env where
  md2body s := "<p>" ++ s ++ "</p>"
  ipynb2body _ := none
  dir2body d := "<a>" ++ d ++ "</a>"
  stdin := "md"

/-- The registration message a js viewer sends on load
(`sendMessage({"func":"newjsclient"})` with `client` set to `"js"`). -/
def jsRegMsg : Msg :=
  { Msg.empty with client := some "js", func := some "newjsclient" }

/-- A full producer `dir` message for directory `d` (the shape the flask
layer sends on a directory GET, lines 941-954). -/
def dirMsg (d : String) : Msg where
  client := some "py"
  func := some "dir"
  cwd := some d
  cwdBody := some ("<a>" ++ d ++ "</a>")
  cwdEncoded := some true
  filename := some ""
  fileBody := some ""
  fileCwd := some d
  fileOpen := some false
  fileEncoding := some ""
  fileEncoded := some false
  forceClose := none
  extra := []

/-- The back request a js viewer sends (`sendMessage({"func":"back"})`). -/
def backMsg : Msg :=
  { Msg.empty with client := some "js", func := some "back" }

/-- The snapshot `send_message_to_all_js_clients` pushes for `dirMsg d`
under `envTest`. -/
def backDirEntry (d : String) : Msg where
  client := some "py"
  func := some "dir"
  cwd := some d
  cwdBody := some ("<a>" ++ d ++ "</a>")
  cwdEncoded := some true
  filename := some ""
  fileBody := some ""
  fileCwd := some ""
  fileOpen := some false
  fileEncoding := some ""
  fileEncoded := some false
  forceClose := none
  extra := []

/-- A full `dir` message carrying an extraneous key. -/
def msgExtraKey : Msg := { dirMsg "/a/" with extra := ["bogus"] }

/-- A `dir` message missing the required `fileBody` key. -/
def msgMissingKey : Msg := { dirMsg "/a/" with fileBody := none }

/-- A canonical state with an open file, used to exercise the dir merge. -/
def stateOpenFile : HubState where
  message :=
    { dirMsg "/d/" with
      filename := some "n.md"
      fileCwd := some "/d/"
      fileBody := some "<p>body</p>"
      fileOpen := some true
      fileEncoding := some "md"
      fileEncoded := some true }
  back := [backDirEntry "/d/"]
  fwd := []
  jsClients := 1

/-- The canonical message after navigating `stateOpenFile` to `/e/` with the
open file's fields merged back in. -/
def mergedNavMsg : Msg where
  client := some "py"
  func := some "dir"
  cwd := some "/e/"
  cwdBody := some "<a>/e/</a>"
  cwdEncoded := some true
  filename := some "n.md"
  fileBody := some "<p>body</p>"
  fileCwd := some "/d/"
  fileOpen := some false
  fileEncoding := some "md"
  fileEncoded := some true
  forceClose := none
  extra := []

/-- The handler output for `dirMsg "/e/"` against `stateOpenFile`. -/
def dirNavOut : HandleOut :=
  ⟨⟨mergedNavMsg, [backDirEntry "/e/", backDirEntry "/d/"], [], 1⟩,
   [mergedNavMsg], []⟩

/-- A forced-close `dir` request (the shape the close button sends, with the
file-view fields cleared). -/
def closeNavMsg : Msg :=
  { dirMsg "/e/" with
    forceClose := some true
    filename := some ""
    fileCwd := some ""
    fileBody := some ""
    fileEncoding := some ""
    fileEncoded := some false }

/-- The handler output for `closeNavMsg` against `stateOpenFile`. -/
def closeNavOut : HandleOut :=
  ⟨⟨backDirEntry "/e/", [backDirEntry "/e/", backDirEntry "/d/"], [], 1⟩,
   [backDirEntry "/e/"], []⟩

/-! ## Lemmas about the renderer dispatch -/

theorem truthyB_eq_true {o : Option Bool} : truthyB o = true ↔ o = some true := by
  cases o with
  | none => simp [truthyB]
  | some b => cases b <;> simp [truthyB]

theorem encode_eq (env : Env) (m : Msg) :
    encode env m = encodeCore env (encodeAux env 1) m := rfl

theorem encodeAux_one (env : Env) (m : Msg) :
    encodeAux env 1 m = encodeCore env (encodeAux env 0) m := rfl

theorem encodeAux_zero (env : Env) (m : Msg) :
    encodeAux env 0 m = .error .fuel := rfl

/-- Every `.ok` result of `encodeTail` has `fileEncoded = some true`, provided
the retry continuation guarantees the same. -/
theorem encodeTail_fileEncoded {env : Env} {r : Msg → Except PyErr Msg}
    (hr : ∀ x m', r x = .ok m' → m'.fileEncoded = some true)
    {m : Msg} (hm : m.fileEncoded = some true) {e : String} {m' : Msg}
    (h : encodeTail env r m e = .ok m') : m'.fileEncoded = some true := by
  unfold encodeTail at h
  split at h
  · split at h
    · exact Except.noConfusion h
    · injection h with h2
      subst h2
      exact hm
  · split at h
    · exact Except.noConfusion h
    · split at h
      · injection h with h2
        subst h2
        exact hm
      · exact hr _ _ h

/-- Every `.ok` result of `encodeDispatch` has `fileEncoded = some true`,
provided the retry continuation guarantees the same. -/
theorem encodeDispatch_fileEncoded {env : Env} {r : Msg → Except PyErr Msg}
    (hr : ∀ x m', r x = .ok m' → m'.fileEncoded = some true)
    {m : Msg} (hm : m.fileEncoded = some true) {e : String} {m' : Msg}
    (h : encodeDispatch env r m e = .ok m') : m'.fileEncoded = some true := by
  unfold encodeDispatch at h
  split at h
  · split at h
    · exact Except.noConfusion h
    · injection h with h2
      subst h2
      exact hm
  · split at h
    · split at h
      · exact Except.noConfusion h
      · split at h
        · injection h with h2
          subst h2
          exact hm
        · exact encodeTail_fileEncoded (m := { m with fileEncoding := some "txt" }) hr hm h
    · exact encodeTail_fileEncoded hr hm h

/-- `encodeTail` invokes its retry continuation only on `txtRetry m`. -/
theorem encodeTail_congr {env : Env} {r1 r2 : Msg → Except PyErr Msg}
    {m : Msg} {e : String} (h : r1 (txtRetry m) = r2 (txtRetry m)) :
    encodeTail env r1 m e = encodeTail env r2 m e := by
  unfold encodeTail
  split
  · rfl
  · cases hfe : m.fileEncoding with
    | none => rfl
    | some fe =>
      dsimp only
      by_cases hh : fe = "html"
      · simp [hh]
      · simp only [if_neg hh]
        exact h

/-- `encodeDispatch` invokes its retry continuation only on `txtRetry`
inputs. -/
theorem encodeDispatch_congr {env : Env} {r1 r2 : Msg → Except PyErr Msg}
    {m : Msg} {e : String} (h : ∀ x, r1 (txtRetry x) = r2 (txtRetry x)) :
    encodeDispatch env r1 m e = encodeDispatch env r2 m e := by
  unfold encodeDispatch
  split
  · rfl
  · split
    · cases hb : m.fileBody with
      | none => rfl
      | some b =>
        dsimp only
        cases env.ipynb2body b with
        | some hh => rfl
        | none => exact encodeTail_congr (h _)
    · exact encodeTail_congr (h _)

/-- `encodeCore` invokes its retry continuation only on `txtRetry` inputs. -/
theorem encodeCore_congr {env : Env} {r1 r2 : Msg → Except PyErr Msg}
    (h : ∀ x, r1 (txtRetry x) = r2 (txtRetry x)) (m : Msg) :
    encodeCore env r1 m = encodeCore env r2 m := by
  unfold encodeCore
  split
  · rfl
  · dsimp only
    split
    · exact encodeDispatch_congr h
    · cases hm : m.filename with
      | none => rfl
      | some f =>
        dsimp only
        cases hd : f.data with
        | nil => rfl
        | cons c rest =>
          dsimp only
          exact encodeDispatch_congr h

/-- On an already-retried input the body never consults the continuation:
the degraded encoding `"txt"` resolves in one pass. -/
theorem encodeCore_txtRetry (env : Env) (r1 r2 : Msg → Except PyErr Msg)
    (x : Msg) : encodeCore env r1 (txtRetry x) = encodeCore env r2 (txtRetry x) :=
  rfl

theorem encodeAux_succ (env : Env) (n : Nat) (m : Msg) :
    encodeAux env (n + 1) m = encodeCore env (encodeAux env n) m := rfl

theorem encodeAux_txtRetry (env : Env) (n : Nat) (x : Msg) :
    encodeAux env (n + 1) (txtRetry x) = encodeAux env 1 (txtRetry x) :=
  encodeCore_txtRetry env (encodeAux env n) (encodeAux env 0) x

/-- Every `.ok` result of `encodeAux` has `fileEncoded = some true`. -/
theorem encodeAux_fileEncoded {env : Env} :
    ∀ {n : Nat} {m m' : Msg}, encodeAux env n m = .ok m' →
      m'.fileEncoded = some true := by
  intro n
  induction n with
  | zero => intro m m' h; exact Except.noConfusion h
  | succ k ih =>
    intro m m' h
    unfold encodeAux encodeCore at h
    split at h
    · injection h with h2
      subst h2
      exact truthyB_eq_true.mp (by assumption)
    · dsimp only at h
      split at h
      · exact encodeDispatch_fileEncoded (fun x y hx => ih hx) rfl h
      · split at h
        · exact Except.noConfusion h
        · split at h
          · exact Except.noConfusion h
          · exact encodeDispatch_fileEncoded (fun x y hx => ih hx) rfl h

theorem encodeTail_nofuel {env : Env} {r : Msg → Except PyErr Msg}
    (hr : ∀ x, r (txtRetry x) ≠ .error .fuel) {m : Msg} {e : String} :
    encodeTail env r m e ≠ .error .fuel := by
  unfold encodeTail
  split
  · split <;> simp
  · split
    · simp
    · split
      · simp
      · exact hr _

theorem encodeDispatch_nofuel {env : Env} {r : Msg → Except PyErr Msg}
    (hr : ∀ x, r (txtRetry x) ≠ .error .fuel) {m : Msg} {e : String} :
    encodeDispatch env r m e ≠ .error .fuel := by
  unfold encodeDispatch
  split
  · split <;> simp
  · split
    · split
      · simp
      · split
        · simp
        · exact encodeTail_nofuel hr
    · exact encodeTail_nofuel hr

theorem encodeCore_nofuel {env : Env} {r : Msg → Except PyErr Msg}
    (hr : ∀ x, r (txtRetry x) ≠ .error .fuel) {m : Msg} :
    encodeCore env r m ≠ .error .fuel := by
  unfold encodeCore
  split
  · simp
  · dsimp only
    split
    · exact encodeDispatch_nofuel hr
    · cases hm : m.filename with
      | none => simp
      | some f =>
        dsimp only
        cases hd : f.data with
        | nil => simp
        | cons c rest =>
          dsimp only
          exact encodeDispatch_nofuel hr

/-- The one-pass evaluation of a retried (degraded-to-txt) message never runs
out of fuel: it resolves through the txt branch immediately. -/
theorem encodeAux_one_txtRetry_nofuel (env : Env) (x : Msg) :
    encodeAux env 1 (txtRetry x) ≠ .error .fuel := by
  rw [encodeAux_one]
  show encodeCore env (encodeAux env 0) (txtRetry x) ≠ .error .fuel
  cases hb : x.fileBody with
  | none =>
    show (encodeTail env (encodeAux env 0)
      { txtRetry x with fileEncoded := some true } "txt") ≠ .error .fuel
    unfold encodeTail
    simp only [if_pos rfl]
    rw [show ({ txtRetry x with fileEncoded := some true } : Msg).fileBody
          = x.fileBody from rfl, hb]
    simp
  | some b =>
    show (encodeTail env (encodeAux env 0)
      { txtRetry x with fileEncoded := some true } "txt") ≠ .error .fuel
    unfold encodeTail
    simp only [if_pos rfl]
    rw [show ({ txtRetry x with fileEncoded := some true } : Msg).fileBody
          = x.fileBody from rfl, hb]
    simp

/-- Evaluating a retried (degraded-to-txt) message: one pass through the
txt branch wraps the body. -/
theorem encodeAux_one_txtRetry_result (env : Env) (x : Msg) (b : String)
    (hb : x.fileBody = some b) :
    encodeAux env 1 (txtRetry x) =
      .ok { txtRetry x with
            fileEncoded := some true
            fileBody := some (txt2body env b) } := by
  rw [encodeAux_one]
  show encodeTail env (encodeAux env 0)
      { txtRetry x with fileEncoded := some true } "txt" = _
  unfold encodeTail
  rw [if_pos rfl]
  rw [show ({ txtRetry x with fileEncoded := some true } : Msg).fileBody
        = x.fileBody from rfl, hb]

/-! ## Claim theorems: renderer dispatch -/

/-- C3: `encode` is idempotent — for every message whose `fileEncoded` flag
is true, `encode` returns the message unchanged (every field equal to its
input value), and consequently applying `encode` twice to any message gives
the same result as applying it once. -/
theorem claim_encode_idempotent (env : Env) (m : Msg) :
    (m.fileEncoded = some true → encode env m = .ok m) ∧
    (∀ m', encode env m = .ok m' → encode env m' = .ok m') := by
  constructor
  · intro h
    show encodeCore env (encodeAux env 1) m = .ok m
    unfold encodeCore
    rw [h]
    simp [truthyB]
  · intro m' h
    have h2 : m'.fileEncoded = some true := encodeAux_fileEncoded h
    show encodeCore env (encodeAux env 1) m' = .ok m'
    unfold encodeCore
    rw [h2]
    simp [truthyB]

/-- C3 witness: a concrete already-encoded message is returned unchanged,
and a second application changes nothing. -/
theorem claim_encode_idempotent_witness :
    encode envTest { Msg.empty with fileEncoded := some true } =
      .ok { Msg.empty with fileEncoded := some true } ∧
    encode envTest { Msg.empty with fileEncoded := some true } =
      .ok { Msg.empty with fileEncoded := some true } :=
  ⟨(claim_encode_idempotent envTest _).1 rfl,
   (claim_encode_idempotent envTest _).2 _
     ((claim_encode_idempotent envTest _).1 rfl)⟩

/-- C4: the fallback chain of `encode` terminates in at most one retry for
every declared encoding (including arbitrary unknown strings): recursion
fuel 2 computes the same result as any larger fuel, and that result is
never the fuel-exhaustion marker, so no encoding is ever re-entered — the
only retransition is the degradation of an unknown encoding to `txt`,
which resolves in the next pass. -/
theorem claim_encode_fallback_terminates (env : Env) (m : Msg) (n : Nat) :
    encodeAux env (n + 2) m = encode env m ∧ encode env m ≠ .error .fuel := by
  constructor
  · show encodeCore env (encodeAux env (n + 1)) m
        = encodeCore env (encodeAux env 1) m
    exact encodeCore_congr (fun x => encodeAux_txtRetry env n x) m
  · show encodeCore env (encodeAux env 1) m ≠ .error .fuel
    exact encodeCore_nofuel (fun x => encodeAux_one_txtRetry_nofuel env x)

/-- C5: a message with a declared encoding outside `{md, txt, html, ipynb}`
and arbitrary content is encoded without an exception: the result has
`fileEncoding = "txt"`, `fileEncoded = true`, and `fileBody` equal to the
content wrapped in a fenced code block and rendered through the markdown
path (`txt2body`). -/
theorem claim_encode_unknown_encoding (env : Env) (m : Msg) (e b : String)
    (hfe : m.fileEncoding = some e) (hne : e ≠ "")
    (hnotin : e ∉ (["md", "txt", "html", "ipynb"] : List String))
    (hb : m.fileBody = some b) (henc : truthyB m.fileEncoded = false) :
    encode env m =
      .ok { m with
            fileEncoded := some true
            fileEncoding := some "txt"
            fileBody := some (txt2body env b) } := by
  have hmd : e ≠ "md" := by intro hx; exact hnotin (by simp [hx])
  have htxt : e ≠ "txt" := by intro hx; exact hnotin (by simp [hx])
  have hhtml : e ≠ "html" := by intro hx; exact hnotin (by simp [hx])
  have hipynb : e ≠ "ipynb" := by intro hx; exact hnotin (by simp [hx])
  show encodeCore env (encodeAux env 1) m = _
  unfold encodeCore
  rw [henc]
  dsimp only
  rw [hfe]
  rw [if_neg (by simp)]
  rw [if_pos (show truthyS (some e) = true by simp [truthyS, hne])]
  simp only [Option.getD_some]
  unfold encodeDispatch
  rw [if_neg hmd, if_neg hipynb]
  unfold encodeTail
  rw [if_neg htxt]
  dsimp only
  rw [if_neg hhtml]
  exact (encodeAux_one_txtRetry_result env _ b hb).trans rfl

/-- C5 witness: `fileEncoding="weird"` on a concrete message resolves to the
wrapped txt rendering. -/
theorem claim_encode_unknown_encoding_witness :
    encode envTest
      { Msg.empty with fileEncoding := some "weird", fileBody := some "x" } =
    .ok { Msg.empty with
          fileEncoded := some true
          fileEncoding := some "txt"
          fileBody := some (txt2body envTest "x") } :=
  claim_encode_unknown_encoding envTest
    { Msg.empty with fileEncoding := some "weird", fileBody := some "x" }
    "weird" "x" rfl (by decide) (by decide) rfl rfl

theorem encodeTail_noIdx {env : Env} {r : Msg → Except PyErr Msg}
    (hr : ∀ x, r (txtRetry x) ≠ .error .indexError) {m : Msg} {e : String} :
    encodeTail env r m e ≠ .error .indexError := by
  unfold encodeTail
  split
  · split <;> simp
  · split
    · simp
    · split
      · simp
      · exact hr _

theorem encodeDispatch_noIdx {env : Env} {r : Msg → Except PyErr Msg}
    (hr : ∀ x, r (txtRetry x) ≠ .error .indexError) {m : Msg} {e : String} :
    encodeDispatch env r m e ≠ .error .indexError := by
  unfold encodeDispatch
  split
  · split <;> simp
  · split
    · split
      · simp
      · split
        · simp
        · exact encodeTail_noIdx hr
    · exact encodeTail_noIdx hr

/-- The inference branch of `encode` is only reached when the declared
encoding is falsy, and it is safe whenever the filename is a non-empty
string; a truthy declared encoding skips it entirely. -/
theorem encodeAux_noIdx {env : Env} :
    ∀ {n : Nat} {m : Msg},
      (truthyS m.fileEncoding = true ∨ ∃ f, m.filename = some f ∧ f ≠ "") →
      encodeAux env n m ≠ .error .indexError := by
  intro n
  induction n with
  | zero => intro m h; rw [encodeAux_zero]; simp
  | succ k ih =>
    intro m h
    rw [encodeAux_succ]
    unfold encodeCore
    split
    · simp
    · dsimp only
      split
      · exact encodeDispatch_noIdx (fun x => ih (Or.inl rfl))
      · rename_i hnt
        cases h with
        | inl hl => exact absurd hl hnt
        | inr hr2 =>
          obtain ⟨f, hf, hfe⟩ := hr2
          rw [hf]
          dsimp only
          cases hd : f.data with
          | nil =>
            exact absurd (String.ext (hd.trans rfl)) hfe
          | cons c rest =>
            dsimp only
            exact encodeDispatch_noIdx (fun x => ih (Or.inl rfl))

/-- C10: when `fileEncoding` is falsy, `encode` infers the encoding from
`filename[0]`; with both `fileEncoding` and `filename` empty (or the
filename key missing) this indexing fails with an exception instead of
returning a result, while a non-empty filename or a non-empty declared
encoding makes the inference branch safe. -/
theorem claim_encode_filename_inference (env : Env) (m : Msg) :
    (truthyB m.fileEncoded = false → truthyS m.fileEncoding = false →
       (m.filename = none ∨ m.filename = some "") →
       encode env m = .error .indexError) ∧
    ((truthyS m.fileEncoding = true ∨ ∃ f, m.filename = some f ∧ f ≠ "") →
       encode env m ≠ .error .indexError) := by
  constructor
  · intro h1 h2 h3
    show encodeCore env (encodeAux env 1) m = .error .indexError
    unfold encodeCore
    rw [h1, if_neg (by simp)]
    dsimp only
    rw [if_neg (by simp [h2])]
    cases h3 with
    | inl h => rw [h]
    | inr h => rw [h]
  · exact fun h => encodeAux_noIdx h

/-- C10 witness: a message with empty filename and no declared encoding
raises, and the same message with filename `"a.md"` does not. -/
theorem claim_encode_filename_inference_witness :
    encode envTest { Msg.empty with filename := some "" } =
      .error .indexError ∧
    encode envTest { Msg.empty with filename := some "a.md" } ≠
      .error .indexError :=
  ⟨(claim_encode_filename_inference envTest
      { Msg.empty with filename := some "" }).1 rfl rfl (Or.inr rfl),
   (claim_encode_filename_inference envTest
      { Msg.empty with filename := some "a.md" }).2
     (Or.inr ⟨"a.md", rfl, by decide⟩)⟩

/-! ## Lemmas about the hub -/

theorem exbind_ok {α β : Type} (a : α) (f : α → Except PyErr β) :
    (Except.ok a : Except PyErr α) >>= f = f a := rfl

theorem exbind_err {α β : Type} (e : PyErr) (f : α → Except PyErr β) :
    (Except.error e : Except PyErr α) >>= f = Except.error e := rfl

theorem exmap_ok {α β : Type} (a : α) (f : α → β) :
    (Except.ok a : Except PyErr α).map f = .ok (f a) := rfl

theorem exmap_err {α β : Type} (e : PyErr) (f : α → β) :
    (Except.error e : Except PyErr α).map f = .error e := rfl

theorem keyGet_some {α : Type} (a : α) :
    keyGet (some a) = (.ok a : Except PyErr α) := rfl

theorem keyGet_none {α : Type} :
    (keyGet none : Except PyErr α) = .error .keyError := rfl

theorem exbind_pure {α β : Type} (a : α) (f : α → Except PyErr β) :
    (pure a : Except PyErr α) >>= f = f a := rfl

theorem bindE_ok {α β : Type} (a : α) (f : α → Except PyErr β) :
    (Except.ok a : Except PyErr α).bind f = f a := rfl

theorem bindE_err {α β : Type} (e : PyErr) (f : α → Except PyErr β) :
    (Except.error e : Except PyErr α).bind f = .error e := rfl

/-- Trimming bounds the deque by 20 whenever at most one entry overflows. -/
theorem trimOldest_length_le {l : List Msg} (h : l.length ≤ 21) :
    (trimOldest l).length ≤ 20 := by
  unfold trimOldest
  split
  · rw [List.length_dropLast]
    omega
  · omega

/-- Pushing onto a bounded deque keeps the 20 newest entries: the evicted
entry (if any) is the farthest one. -/
theorem trimOldest_push (e : Msg) (l : List Msg) (h : l.length ≤ 20) :
    trimOldest (e :: l) = (e :: l).take 20 := by
  unfold trimOldest
  split
  · rename_i hgt
    have h21 : (e :: l).length = 21 := by
      simp only [List.length_cons] at hgt ⊢
      omega
    rw [List.dropLast_eq_take, h21]
  · rename_i hle
    have : (e :: l).length ≤ 20 := by omega
    exact (List.take_of_length_le this).symm

/-- What `send_message_to_all_js_clients` does when it succeeds: the payload
is the canonical `MESSAGE`, the canonical state and the forward deque and
the viewer registry are untouched, and the back deque either stays or gets
a trimmed push. -/
theorem sendToAll_ok {s s' : HubState} {b : Msg} (h : sendToAll s = .ok (s', b)) :
    b = s.message ∧ s'.message = s.message ∧ s'.fwd = s.fwd ∧
    s'.jsClients = s.jsClients ∧
    (s'.back = s.back ∨ ∃ e, s'.back = trimOldest (e :: s.back)) := by
  unfold sendToAll backEntry at h
  cases hb : s.back with
  | nil =>
    rw [hb] at h
    cases hc : s.message.cwd <;> rw [hc] at h <;>
      simp only [keyGet_some, keyGet_none, exbind_ok, exbind_err] at h
    · exact Except.noConfusion h
    · cases hcb : s.message.cwdBody <;> rw [hcb] at h <;>
        simp only [keyGet_some, keyGet_none, exbind_ok, exbind_err] at h
      · exact Except.noConfusion h
      · cases hce : s.message.cwdEncoded <;> rw [hce] at h <;>
          simp only [keyGet_some, keyGet_none, exbind_ok, exbind_err] at h
        · exact Except.noConfusion h
        · injection h with h2
          injection h2 with h3 h4
          subst h3
          subst h4
          exact ⟨rfl, rfl, rfl, rfl, Or.inr ⟨_, rfl⟩⟩
  | cons top rest =>
    rw [hb] at h
    cases hc : s.message.cwd <;> rw [hc] at h <;>
      simp only [keyGet_some, keyGet_none, exbind_ok, exbind_err] at h
    · exact Except.noConfusion h
    · cases htc : top.cwd <;> rw [htc] at h <;>
        simp only [keyGet_some, keyGet_none, exbind_ok, exbind_err, exbind_pure] at h
      · exact Except.noConfusion h
      · split at h
        · cases hcb : s.message.cwdBody <;> rw [hcb] at h <;>
            simp only [keyGet_some, keyGet_none, exbind_ok, exbind_err] at h
          · exact Except.noConfusion h
          · cases hce : s.message.cwdEncoded <;> rw [hce] at h <;>
              simp only [keyGet_some, keyGet_none, exbind_ok, exbind_err] at h
            · exact Except.noConfusion h
            · injection h with h2
              injection h2 with h3 h4
              subst h3
              subst h4
              exact ⟨rfl, rfl, rfl, rfl, Or.inr ⟨_, rfl⟩⟩
        · injection h with h2
          injection h2 with h3 h4
          subst h3
          subst h4
          exact ⟨rfl, rfl, rfl, rfl, Or.inl hb⟩

theorem popNvim_func (m : Msg) : (popNvim m).func = m.func := rfl

theorem popNvim_fileOpen (m : Msg) : (popNvim m).fileOpen = m.fileOpen := rfl

theorem handle_zero (env : Env) (s : HubState) (m : Msg) :
    handle_message env 0 s m = .error .fuel := rfl

/-- A failing validation aborts the handler with the assertion error. -/
theorem handle_invalid {env : Env} {n : Nat} {s : HubState} {m : Msg}
    (hv : validate_message (popNvim m) = false) :
    handle_message env (n + 1) s m = .error .assertionError := by
  simp [handle_message, hv]

/-- On a validated `dir` message the handler is the dir merge followed by
the broadcast. -/
theorem handle_dir_eq {env : Env} {n : Nat} {s : HubState} {m : Msg}
    (hv : validate_message (popNvim m) = true) (hf : m.func = some "dir") :
    handle_message env (n + 1) s m =
      (dirMerge env s (popNvim m)).bind (mergeAndBroadcast s) := by
  simp [handle_message, hv, popNvim_func, hf, truthyS]

/-- On a validated `file` message the handler is the renderer dispatch
followed by the broadcast. -/
theorem handle_file_eq {env : Env} {n : Nat} {s : HubState} {m : Msg}
    (hv : validate_message (popNvim m) = true) (hf : m.func = some "file") :
    handle_message env (n + 1) s m =
      (encode env (popNvim m)).bind (mergeAndBroadcast s) := by
  simp [handle_message, hv, popNvim_func, hf, truthyS]

/-- What the broadcast tail of the `dir`/`file` branch produces when it
succeeds. -/
theorem mergeAndBroadcast_ok {s : HubState} {m : Msg} {out : HandleOut}
    (h : mergeAndBroadcast s m = .ok out) :
    out.broadcasts = [out.state.message] ∧ out.replies = [] ∧
    out.state.message = s.message.update m ∧ out.state.fwd = s.fwd ∧
    out.state.jsClients = s.jsClients ∧
    (out.state.back = s.back ∨ ∃ e, out.state.back = trimOldest (e :: s.back)) := by
  unfold mergeAndBroadcast at h
  cases hs : sendToAll { s with message := s.message.update m } with
  | error e =>
    rw [hs] at h
    simp only [exmap_err] at h
    exact Except.noConfusion h
  | ok p =>
    obtain ⟨s3, b⟩ := p
    rw [hs] at h
    simp only [exmap_ok] at h
    injection h with h2
    subst h2
    obtain ⟨hb, hmsg, hfwd, hjs, hback⟩ := sendToAll_ok hs
    exact ⟨by rw [hb, hmsg], rfl, hmsg, hfwd, hjs, hback⟩

/-- A successful `dir`/`file` handle emits exactly one broadcast, whose
payload is the new canonical state. -/
theorem handle_dirfile_ok {env : Env} {n : Nat} {s : HubState} {m : Msg}
    {out : HandleOut} (hf : m.func = some "dir" ∨ m.func = some "file")
    (h : handle_message env (n + 1) s m = .ok out) :
    out.broadcasts = [out.state.message] := by
  cases hv : validate_message (popNvim m) with
  | false =>
    rw [handle_invalid hv] at h
    exact Except.noConfusion h
  | true =>
    cases hf with
    | inl hd =>
      rw [handle_dir_eq hv hd] at h
      cases hdm : dirMerge env s (popNvim m) <;> rw [hdm] at h <;>
        simp only [bindE_err, bindE_ok] at h
      · exact Except.noConfusion h
      · exact (mergeAndBroadcast_ok h).1
    | inr hd =>
      rw [handle_file_eq hv hd] at h
      cases hdm : encode env (popNvim m) <;> rw [hdm] at h <;>
        simp only [bindE_err, bindE_ok] at h
      · exact Except.noConfusion h
      · exact (mergeAndBroadcast_ok h).1

/-- Replaying a sequence of `dir`/`file` messages: the last broadcast payload
is the final canonical state. -/
theorem processAll_dirfile_last {env : Env} {n : Nat} :
    ∀ {ms : List Msg} {s s' : HubState} {bs : List Msg},
      (∀ m ∈ ms, m.func = some "dir" ∨ m.func = some "file") →
      processAll env (n + 1) s ms = .ok (s', bs) →
      ms ≠ [] → bs.getLast? = some s'.message := by
  intro ms
  induction ms with
  | nil => intro s s' bs hf h hne; exact absurd rfl hne
  | cons m ms ih =>
    intro s s' bs hf h hne
    unfold processAll at h
    cases hout : handle_message env (n + 1) s m <;> rw [hout] at h <;>
      simp only [exbind_ok, exbind_err] at h
    · exact Except.noConfusion h
    · rename_i out
      cases hp : processAll env (n + 1) out.state ms <;> rw [hp] at h <;>
        simp only [exbind_ok, exbind_err] at h
      · exact Except.noConfusion h
      · rename_i p
        obtain ⟨ps, pbs⟩ := p
        dsimp only at h
        injection h with h2
        injection h2 with h3 h4
        subst h3
        subst h4
        cases ms with
        | nil =>
          injection hp with hp2
          injection hp2 with hp3 hp4
          subst hp3
          subst hp4
          have hb1 : out.broadcasts = [out.state.message] :=
            handle_dirfile_ok (hf m (List.mem_cons_self m [])) hout
          rw [hb1]
          rfl
        | cons m2 ms2 =>
          have hlast : pbs.getLast? = some ps.message :=
            ih (fun x hx => hf x (List.mem_cons_of_mem m hx)) hp (by simp)
          have hne2 : pbs ≠ [] := by
            intro hx
            rw [hx] at hlast
            exact Option.noConfusion hlast
          rw [List.getLast?_append_of_ne_nil _ hne2]
          exact hlast

theorem popNvim_filename (m : Msg) : (popNvim m).filename = m.filename := rfl

theorem popNvim_forceClose (m : Msg) : (popNvim m).forceClose = m.forceClose := rfl

theorem popNvim_fileCwd (m : Msg) : (popNvim m).fileCwd = m.fileCwd := rfl

theorem popNvim_fileBody (m : Msg) : (popNvim m).fileBody = m.fileBody := rfl

theorem popNvim_fileEncoding (m : Msg) :
    (popNvim m).fileEncoding = m.fileEncoding := rfl

theorem popNvim_fileEncoded (m : Msg) :
    (popNvim m).fileEncoded = m.fileEncoded := rfl

theorem updKey_some {α : Type} (v : α) (o : Option α) :
    updKey (some v) o = some v := rfl

theorem updKey_self {α : Type} (o : Option α) : updKey o o = o := by
  cases o <;> rfl

/-- The directory render step touches only `cwdBody` and `cwdEncoded`. -/
theorem dirRender_fields {env : Env} {m1 m2 : Msg}
    (h : dirRender env m1 = .ok m2) :
    m2.filename = m1.filename ∧ m2.fileCwd = m1.fileCwd ∧
    m2.fileBody = m1.fileBody ∧ m2.fileEncoding = m1.fileEncoding ∧
    m2.fileEncoded = m1.fileEncoded := by
  unfold dirRender at h
  cases hce : m1.cwdEncoded <;> rw [hce] at h
  · exact Except.noConfusion h
  · dsimp only at h
    split at h
    · cases hc : m1.cwd <;> rw [hc] at h <;>
        simp only [keyGet_some, keyGet_none, exbind_ok, exbind_err] at h
      · exact Except.noConfusion h
      · injection h with h2
        subst h2
        exact ⟨rfl, rfl, rfl, rfl, rfl⟩
    · injection h with h2
      subst h2
      exact ⟨rfl, rfl, rfl, rfl, rfl⟩

/-- The file fields of a successful dir merge: either the canonical open
file's fields were merged in (no filename in the message, a filename in the
canonical state, no forced close), or the incoming message's own fields
stand. -/
theorem dirMerge_file_fields {env : Env} {s : HubState} {msg m2 : Msg}
    (h : dirMerge env s msg = .ok m2) :
    ((((!(truthyS msg.filename) && truthyS s.message.filename)
        && !(truthyB msg.forceClose)) = true) →
      m2.filename = s.message.filename ∧ m2.fileCwd = s.message.fileCwd ∧
      m2.fileBody = s.message.fileBody ∧
      m2.fileEncoding = s.message.fileEncoding ∧
      m2.fileEncoded = s.message.fileEncoded) ∧
    ((((!(truthyS msg.filename) && truthyS s.message.filename)
        && !(truthyB msg.forceClose)) = false) →
      m2.filename = msg.filename ∧ m2.fileCwd = msg.fileCwd ∧
      m2.fileBody = msg.fileBody ∧ m2.fileEncoding = msg.fileEncoding ∧
      m2.fileEncoded = msg.fileEncoded) := by
  unfold dirMerge at h
  cases hc1 : (!(truthyS msg.filename) && truthyS s.message.filename) <;>
    rw [hc1] at h
  · simp only [Bool.false_eq_true, if_false, exbind_pure] at h
    refine ⟨fun hx => ?_, fun _ => dirRender_fields h⟩
    rw [Bool.false_and] at hx
    exact Bool.noConfusion hx
  · cases hc2 : truthyB msg.forceClose <;> rw [hc2] at h
    · simp only [Bool.not_false, if_true] at h
      cases hfn : s.message.filename <;> rw [hfn] at h <;>
        simp only [keyGet_some, keyGet_none, exbind_ok, exbind_err] at h
      · exact Except.noConfusion h
      · cases hfc : s.message.fileCwd <;> rw [hfc] at h <;>
          simp only [keyGet_some, keyGet_none, exbind_ok, exbind_err] at h
        · exact Except.noConfusion h
        · cases hfb : s.message.fileBody <;> rw [hfb] at h <;>
            simp only [keyGet_some, keyGet_none, exbind_ok, exbind_err] at h
          · exact Except.noConfusion h
          · cases hfe : s.message.fileEncoding <;> rw [hfe] at h <;>
              simp only [keyGet_some, keyGet_none, exbind_ok, exbind_err] at h
            · exact Except.noConfusion h
            · cases hfd : s.message.fileEncoded <;> rw [hfd] at h <;>
                simp only [keyGet_some, keyGet_none, exbind_ok, exbind_err,
                  exbind_pure] at h
              · exact Except.noConfusion h
              · obtain ⟨e1, e2, e3, e4, e5⟩ := dirRender_fields h
                refine ⟨fun _ => ⟨?_, ?_, ?_, ?_, ?_⟩, fun hx => ?_⟩
                · exact e1
                · exact e2
                · exact e3
                · exact e4
                · exact e5
                · rw [Bool.not_false, Bool.and_true] at hx
                  exact Bool.noConfusion hx
    · simp only [Bool.not_true, Bool.false_eq_true, if_false, exbind_pure] at h
      obtain ⟨e1, e2, e3, e4, e5⟩ := dirRender_fields h
      refine ⟨fun hx => ?_, fun _ => ⟨e1, e2, e3, e4, e5⟩⟩
      rw [Bool.not_true, Bool.and_false] at hx
      exact Bool.noConfusion hx

/-! ## Claim theorems: the hub -/

/-- C1 (refuting evaluation): the claim says a `dir` message missing a
required key or carrying an extraneous key fails validation before any
mutation of the canonical state.  In the code, `validate_message` guards on
the `client` value (never `"dir"`/`"file"` for real clients) and its second
assert is a tautology, so both such messages pass validation, are handled
successfully, and mutate the canonical state. -/
theorem claim_validation_gap :
    validate_message (popNvim msgExtraKey) = true ∧
    validate_message (popNvim msgMissingKey) = true ∧
    (∃ out, handle_message envTest 1 initState msgExtraKey = .ok out ∧
      out.state.message ≠ initState.message) ∧
    (∃ out, handle_message envTest 1 initState msgMissingKey = .ok out ∧
      out.state.message ≠ initState.message) := by
  exact ⟨rfl, rfl, ⟨_, rfl, by decide⟩, ⟨_, rfl, by decide⟩⟩

/-- C2: after a fresh hub replays any sequence of successfully handled
`dir`/`file` messages, a viewer registering afterwards is immediately sent
the full current canonical state — and that state is exactly the payload of
the last broadcast to the already-connected viewers. -/
theorem claim_state_replay (env : Env) (n : Nat) (ms : List Msg)
    (s : HubState) (bs : List Msg)
    (hf : ∀ m ∈ ms, m.func = some "dir" ∨ m.func = some "file")
    (hrun : processAll env (n + 1) initState ms = .ok (s, bs))
    (hne : ms ≠ []) :
    register_client env (n + 1) s jsRegMsg =
      .ok (some s.message, ⟨{ s with jsClients := s.jsClients + 1 }, [], []⟩) ∧
    bs.getLast? = some s.message :=
  ⟨rfl, processAll_dirfile_last hf hrun hne⟩

/-- C2 witness: one `dir` message, then a registering viewer receives that
very state, which was also the last broadcast. -/
theorem claim_state_replay_witness :
    register_client envTest 1 ⟨dirMsg "/a/", [backDirEntry "/a/"], [], 0⟩
        jsRegMsg =
      .ok (some (dirMsg "/a/"),
           ⟨⟨dirMsg "/a/", [backDirEntry "/a/"], [], 1⟩, [], []⟩) ∧
    [dirMsg "/a/"].getLast? = some (dirMsg "/a/") := by
  have h := claim_state_replay envTest 0 [dirMsg "/a/"]
      ⟨dirMsg "/a/", [backDirEntry "/a/"], [], 0⟩ [dirMsg "/a/"]
      (by intro m hm; rw [List.mem_singleton] at hm; subst hm; exact Or.inl rfl)
      rfl (by simp)
  exact ⟨h.1, h.2⟩

/-- C6: a `dir` message with an empty (or missing) filename, handled while
the canonical state has a file open and without a forced-close request,
preserves the canonical file fields (`filename`, `fileCwd`, `fileBody`,
`fileEncoding`, `fileEncoded`) by merging them into the incoming message;
with `forceClose` set, the merge is skipped and the request's own
(cleared) file-view fields replace the canonical ones. -/
theorem claim_dir_merge (env : Env) (n : Nat) (s : HubState) (msg : Msg)
    (out : HandleOut) (hd : msg.func = some "dir")
    (h : handle_message env (n + 1) s msg = .ok out) :
    ((truthyS msg.filename = false ∧ truthyS s.message.filename = true ∧
        truthyB msg.forceClose = false) →
      (out.state.message.filename = s.message.filename ∧
       out.state.message.fileCwd = s.message.fileCwd ∧
       out.state.message.fileBody = s.message.fileBody ∧
       out.state.message.fileEncoding = s.message.fileEncoding ∧
       out.state.message.fileEncoded = s.message.fileEncoded)) ∧
    (∀ fn fc fb fe fd, msg.forceClose = some true →
      msg.filename = some fn → msg.fileCwd = some fc → msg.fileBody = some fb →
      msg.fileEncoding = some fe → msg.fileEncoded = some fd →
      (out.state.message.filename = some fn ∧
       out.state.message.fileCwd = some fc ∧
       out.state.message.fileBody = some fb ∧
       out.state.message.fileEncoding = some fe ∧
       out.state.message.fileEncoded = some fd)) := by
  cases hv : validate_message (popNvim msg) with
  | false =>
    rw [handle_invalid hv] at h
    exact Except.noConfusion h
  | true =>
    rw [handle_dir_eq hv hd] at h
    cases hdm : dirMerge env s (popNvim msg) <;> rw [hdm] at h <;>
      simp only [bindE_err, bindE_ok] at h
    · exact Except.noConfusion h
    · rename_i m2
      obtain ⟨hbr, hrep, hmsg, hfwd, hjs, hback⟩ := mergeAndBroadcast_ok h
      obtain ⟨hmerge, hown⟩ := dirMerge_file_fields hdm
      constructor
      · rintro ⟨ha1, ha2, ha3⟩
        have hcond : ((!(truthyS (popNvim msg).filename)
            && truthyS s.message.filename)
            && !(truthyB (popNvim msg).forceClose)) = true := by
          rw [popNvim_filename, popNvim_forceClose, ha1, ha2, ha3]
          rfl
        obtain ⟨e1, e2, e3, e4, e5⟩ := hmerge hcond
        refine ⟨?_, ?_, ?_, ?_, ?_⟩ <;> rw [hmsg]
        · rw [show (s.message.update m2).filename
              = updKey m2.filename s.message.filename from rfl, e1, updKey_self]
        · rw [show (s.message.update m2).fileCwd
              = updKey m2.fileCwd s.message.fileCwd from rfl, e2, updKey_self]
        · rw [show (s.message.update m2).fileBody
              = updKey m2.fileBody s.message.fileBody from rfl, e3, updKey_self]
        · rw [show (s.message.update m2).fileEncoding
              = updKey m2.fileEncoding s.message.fileEncoding from rfl, e4,
            updKey_self]
        · rw [show (s.message.update m2).fileEncoded
              = updKey m2.fileEncoded s.message.fileEncoded from rfl, e5,
            updKey_self]
      · intro fn fc fb fe fd hfc0 hfn0 hfcwd0 hfb0 hfe0 hfd0
        have hcond : ((!(truthyS (popNvim msg).filename)
            && truthyS s.message.filename)
            && !(truthyB (popNvim msg).forceClose)) = false := by
          rw [popNvim_forceClose, hfc0]
          simp [truthyB]
        obtain ⟨e1, e2, e3, e4, e5⟩ := hown hcond
        refine ⟨?_, ?_, ?_, ?_, ?_⟩ <;> rw [hmsg]
        · rw [show (s.message.update m2).filename
              = updKey m2.filename s.message.filename from rfl, e1,
            popNvim_filename, hfn0]
          rfl
        · rw [show (s.message.update m2).fileCwd
              = updKey m2.fileCwd s.message.fileCwd from rfl, e2,
            popNvim_fileCwd, hfcwd0]
          rfl
        · rw [show (s.message.update m2).fileBody
              = updKey m2.fileBody s.message.fileBody from rfl, e3,
            popNvim_fileBody, hfb0]
          rfl
        · rw [show (s.message.update m2).fileEncoding
              = updKey m2.fileEncoding s.message.fileEncoding from rfl, e4,
            popNvim_fileEncoding, hfe0]
          rfl
        · rw [show (s.message.update m2).fileEncoded
              = updKey m2.fileEncoded s.message.fileEncoded from rfl, e5,
            popNvim_fileEncoded, hfd0]
          rfl

/-- C6 witness: navigating `stateOpenFile` to `/e/` keeps `n.md` open;
forcing a close clears the file-view fields. -/
theorem claim_dir_merge_witness :
    handle_message envTest 1 stateOpenFile (dirMsg "/e/") = .ok dirNavOut ∧
    dirNavOut.state.message.filename = some "n.md" ∧
    dirNavOut.state.message.fileBody = some "<p>body</p>" ∧
    handle_message envTest 1 stateOpenFile closeNavMsg = .ok closeNavOut ∧
    closeNavOut.state.message.filename = some "" := by
  have ha := (claim_dir_merge envTest 0 stateOpenFile (dirMsg "/e/")
      dirNavOut rfl rfl).1 ⟨rfl, rfl, rfl⟩
  have hb := (claim_dir_merge envTest 0 stateOpenFile closeNavMsg
      closeNavOut rfl rfl).2 "" "" "" "" false rfl rfl rfl rfl rfl rfl
  exact ⟨rfl, ha.1.trans rfl, ha.2.2.1.trans rfl, rfl, hb.1⟩

/-- C9: a `back` request with fewer than 2 history entries is a no-op — the
canonical state, both stacks and the viewer registry are unchanged, no
broadcast is emitted and no reply is sent. -/
theorem claim_back_noop (env : Env) (n : Nat) (s : HubState) (msg : Msg)
    (hf : msg.func = some "back")
    (hv : validate_message (popNvim msg) = true)
    (hlen : s.back.length < 2) :
    handle_message env (n + 1) s msg = .ok ⟨s, [], []⟩ := by
  simp only [handle_message, hv, popNvim_func, hf]
  simp [truthyS]
  cases hb : s.back with
  | nil => rfl
  | cons a t =>
    cases t with
    | nil => rfl
    | cons b r =>
      rw [hb] at hlen
      simp at hlen
      omega

/-- C9 witness: a `back` request against the fresh hub is a no-op. -/
theorem claim_back_noop_witness :
    handle_message envTest 1 initState backMsg = .ok ⟨initState, [], []⟩ :=
  claim_back_noop envTest 0 initState backMsg rfl rfl (by decide)

/-- C7: a `back` request handled on a directory view (`fileOpen` falsy) with
at least two back entries moves the top entry onto the (trimmed) forward
stack and re-handles the next entry as the new canonical state; in the
concrete scenario, after visiting `/a/` then `/b/`, `back` restores `/a/`
as canonical and leaves the `/b/` snapshot on the forward stack. -/
theorem claim_back_restores :
    (∀ (env : Env) (n : Nat) (s : HubState) (msg t1 t2 : Msg)
        (rest : List Msg),
      msg.func = some "back" → validate_message (popNvim msg) = true →
      truthyB msg.fileOpen = false → s.back = t1 :: t2 :: rest →
      handle_message env (n + 1) s msg =
        handle_message env n
          { s with back := rest, fwd := trimOldest (t1 :: s.fwd) } t2) ∧
    ((processAll envTest 2 initState [dirMsg "/a/", dirMsg "/b/", backMsg]).map
        (fun p => (p.1.message.cwd, p.1.fwd.map Msg.cwd, p.1.back.map Msg.cwd))
      = .ok (some "/a/", [some "/b/"], [some "/a/"])) := by
  constructor
  · intro env n s msg t1 t2 rest hf hv ho hb
    simp [handle_message, hv, popNvim_func, hf, truthyS, hb, popNvim_fileOpen,
      ho]
  · rfl

/-- C7 witness: the movement equation at a concrete two-entry history. -/
theorem claim_back_restores_witness :
    handle_message envTest 2
        ⟨dirMsg "/b/", [backDirEntry "/b/", backDirEntry "/a/"], [], 0⟩
        backMsg =
      handle_message envTest 1
        ⟨dirMsg "/b/", [], [backDirEntry "/b/"], 0⟩ (backDirEntry "/a/") :=
  claim_back_restores.1 envTest 1
    ⟨dirMsg "/b/", [backDirEntry "/b/", backDirEntry "/a/"], [], 0⟩
    backMsg (backDirEntry "/b/") (backDirEntry "/a/") [] rfl rfl rfl rfl

theorem mergeAndBroadcast_bounds {s : HubState} {m : Msg} {out : HandleOut}
    (h1 : s.back.length ≤ 20) (h2 : s.fwd.length ≤ 20)
    (h : mergeAndBroadcast s m = .ok out) :
    out.state.back.length ≤ 20 ∧ out.state.fwd.length ≤ 20 := by
  obtain ⟨_, _, _, hfwd, _, hback⟩ := mergeAndBroadcast_ok h
  refine ⟨?_, by rw [hfwd]; exact h2⟩
  cases hback with
  | inl he =>
    rw [he]
    exact h1
  | inr he =>
    obtain ⟨e, he⟩ := he
    rw [he]
    refine trimOldest_length_le ?_
    simp only [List.length_cons]
    omega

/-- C8: every hub operation keeps both history stacks at 20 entries or
fewer, and a push onto a full stack keeps the 20 newest entries (the
oldest, farthest entry is the one evicted). -/
theorem claim_history_bounded :
    (∀ (env : Env) (fuel : Nat) (s : HubState) (msg : Msg) (out : HandleOut),
      s.back.length ≤ 20 → s.fwd.length ≤ 20 →
      handle_message env fuel s msg = .ok out →
      out.state.back.length ≤ 20 ∧ out.state.fwd.length ≤ 20) ∧
    (∀ (e : Msg) (l : List Msg), l.length ≤ 20 →
      trimOldest (e :: l) = (e :: l).take 20) := by
  constructor
  · intro env fuel
    induction fuel with
    | zero =>
      intro s msg out h1 h2 h
      exact Except.noConfusion h
    | succ k ih =>
      intro s msg out h1 h2 h
      simp only [handle_message] at h
      split at h
      · -- validation failed: no ok result
        exact Except.noConfusion h
      · split at h
        · -- falsy func: no-op
          injection h with h3
          subst h3
          exact ⟨h1, h2⟩
        · split at h
          · -- numJSClients: reply only
            injection h with h3
            subst h3
            exact ⟨h1, h2⟩
          · split at h
            · -- editFile: two canonical lookups, no state change
              cases hfc : s.message.fileCwd <;> rw [hfc] at h <;>
                simp only [keyGet_some, keyGet_none, bindE_ok, bindE_err] at h
              · exact Except.noConfusion h
              · cases hfn : s.message.filename <;> rw [hfn] at h <;>
                  simp only [keyGet_some, keyGet_none, bindE_ok,
                    bindE_err] at h
                · exact Except.noConfusion h
                · injection h with h3
                  subst h3
                  exact ⟨h1, h2⟩
            · split at h
              · -- back branch, at least two entries
                split at h
                · rename_i t1 t2 rest hback
                  split at h
                  · refine ih _ _ _ ?_ ?_ h
                    · rw [hback] at h1
                      simp only [List.length_cons] at h1 ⊢
                      omega
                    · exact trimOldest_length_le (by omega)
                  · refine ih _ _ _ ?_ ?_ h
                    · rw [hback] at h1
                      simp only [List.length_cons] at h1 ⊢
                      omega
                    · refine trimOldest_length_le ?_
                      simp only [List.length_cons]
                      omega
                · -- back with fewer than two entries: no-op
                  injection h with h3
                  subst h3
                  exact ⟨h1, h2⟩
              · split at h
                · -- dir branch
                  cases hdm : dirMerge env s (popNvim msg) <;>
                    rw [hdm] at h <;> simp only [bindE_err, bindE_ok] at h
                  · exact Except.noConfusion h
                  · exact mergeAndBroadcast_bounds h1 h2 h
                · split at h
                  · -- file branch
                    cases hdm : encode env (popNvim msg) <;>
                      rw [hdm] at h <;>
                      simp only [bindE_err, bindE_ok] at h
                    · exact Except.noConfusion h
                    · exact mergeAndBroadcast_bounds h1 h2 h
                  · -- unknown func: no-op
                    injection h with h3
                    subst h3
                    exact ⟨h1, h2⟩
  · exact fun e l hl => trimOldest_push e l hl

/-- C8 witness: a concrete handled message keeps the bounds, and a concrete
push keeps the 20 newest entries. -/
theorem claim_history_bounded_witness :
    initState.back.length ≤ 20 ∧ initState.fwd.length ≤ 20 ∧
    handle_message envTest 1 initState (dirMsg "/a/") =
      .ok ⟨⟨dirMsg "/a/", [backDirEntry "/a/"], [], 0⟩, [dirMsg "/a/"], []⟩ ∧
    (⟨dirMsg "/a/", [backDirEntry "/a/"], [], 0⟩ : HubState).back.length ≤ 20 ∧
    (⟨dirMsg "/a/", [backDirEntry "/a/"], [], 0⟩ : HubState).fwd.length ≤ 20 ∧
    trimOldest (backDirEntry "/b/" :: [backDirEntry "/a/"]) =
      (backDirEntry "/b/" :: [backDirEntry "/a/"]).take 20 := by
  have h := claim_history_bounded.1 envTest 1 initState (dirMsg "/a/")
      ⟨⟨dirMsg "/a/", [backDirEntry "/a/"], [], 0⟩, [dirMsg "/a/"], []⟩
      (by decide) (by decide) rfl
  have h2 := claim_history_bounded.2 (backDirEntry "/b/") [backDirEntry "/a/"]
      (by decide)
  exact ⟨by decide, by decide, rfl, h.1, h.2, h2⟩

end Smdv
